import Mathlib

/-!
Verification of the ZEC-SMS school-management backend (Express + Mongoose).

Shallow embedding: each Mongoose model's pre-save pipeline and each
controller's query-building logic is translated into a pure Lean function;
documents become structures, the database becomes a list of documents,
`Date.now()` becomes an explicit `now` parameter, and fallible saves return
`Except String`.  JavaScript `Number` arithmetic on marks and money is
modelled by `ℚ` (exact; the source never leaves the range where binary64
is exact for these quantities), and `Math.round` / `Math.ceil` by the
floor-based functions below.
-/

namespace ZecSms

/-- JavaScript `Math.round x = ⌊x + 0.5⌋` (rounds half-up). -/
def jsRound (q : ℚ) : ℤ := ⌊q + 1 / 2⌋

/-- JavaScript `Math.ceil`. -/
def jsCeil (q : ℚ) : ℤ := ⌈q⌉

/-! ## ExamMark model (src/backend/models/ExamMark.js) -/

/-- Grade enum of `examMarkSchema` ('A+','A','B+','B','C+','C','D+','D','F'). -/
inductive Grade
  | APlus | A | BPlus | B | CPlus | C | DPlus | D | F
  deriving DecidableEq, Repr

/-- `calculateGrade` (ExamMark.js lines 126–136): threshold table on the
rounded percentage. -/
def calculateGrade (percentage : ℤ) : Grade :=
  if percentage ≥ 90 then .APlus
  else if percentage ≥ 80 then .A
  else if percentage ≥ 70 then .BPlus
  else if percentage ≥ 60 then .B
  else if percentage ≥ 50 then .CPlus
  else if percentage ≥ 40 then .C
  else if percentage ≥ 35 then .DPlus
  else if percentage ≥ 30 then .D
  else .F

/-- The ExamMark document fields relevant to grading. -/
structure ExamMark where
  marksObtained : ℚ
  totalMarks : ℚ
  passingMarks : ℚ
  percentage : ℤ
  grade : Grade
  isPassed : Bool
  isAbsent : Bool
  deriving DecidableEq, Repr

/-- Second pre-save hook of `examMarkSchema` (lines 105–123): absent marks are
forced to zero/F, otherwise percentage, pass flag and grade are derived. -/
def examMarkGradingHook (m : ExamMark) : ExamMark :=
  if m.isAbsent then
    { m with marksObtained := 0, percentage := 0, grade := .F, isPassed := false }
  else
    let percentage := jsRound (m.marksObtained / m.totalMarks * 100)
    { m with
      percentage := percentage
      isPassed := m.marksObtained ≥ m.passingMarks
      grade := calculateGrade percentage }

/-- `ExamMark.save()`: schema `min` validators run first, then the
marks-vs-total guard hook (lines 97–102), then the grading hook. -/
def examMarkSave (m : ExamMark) : Except String ExamMark :=
  if m.marksObtained < 0 then .error "Marks cannot be negative"
  else if m.totalMarks < 1 then .error "Total marks must be at least 1"
  else if m.passingMarks < 1 then .error "Passing marks must be at least 1"
  else if m.marksObtained > m.totalMarks then
    .error "Marks obtained cannot be greater than total marks"
  else .ok (examMarkGradingHook m)

/-- The grading hook never touches the `isAbsent` flag. -/
theorem examMarkGradingHook_isAbsent (m : ExamMark) :
    (examMarkGradingHook m).isAbsent = m.isAbsent := by
  unfold examMarkGradingHook; split <;> rfl

/-- The spec's grading scenario evaluated through the save pipeline. -/
theorem examMarkSave_scenario :
    examMarkSave ⟨72, 100, 40, 0, Grade.F, false, false⟩ =
      .ok ⟨72, 100, 40, 72, Grade.BPlus, true, false⟩ := by
  have h72 : jsRound (72 : ℚ) = 72 := by norm_num [jsRound]
  unfold examMarkSave examMarkGradingHook
  norm_num [h72, calculateGrade]

/-- C2: every ExamMark saved with `isAbsent = false` stores
`percentage = round(marksObtained/totalMarks × 100)`,
`isPassed = (marksObtained ≥ passingMarks)` and the threshold-table grade of
that percentage; every ExamMark saved with `isAbsent = true` stores
`marksObtained = 0`, `percentage = 0`, grade `F`, `isPassed = false`; and
`marksObtained = 72, totalMarks = 100, passingMarks = 40` yields
`percentage = 72`, grade `B+`, `isPassed = true`. -/
theorem C2_exam_mark_grading (m m' : ExamMark) (h : examMarkSave m = .ok m') :
    (m'.isAbsent = false →
        m'.percentage = jsRound (m'.marksObtained / m'.totalMarks * 100) ∧
        m'.isPassed = decide (m'.marksObtained ≥ m'.passingMarks) ∧
        m'.grade = calculateGrade m'.percentage) ∧
    (m'.isAbsent = true →
        m'.marksObtained = 0 ∧ m'.percentage = 0 ∧ m'.grade = Grade.F ∧
        m'.isPassed = false) ∧
    (examMarkSave ⟨72, 100, 40, 0, Grade.F, false, false⟩).map
        (fun r => (r.percentage, r.grade, r.isPassed)) =
      Except.ok ((72 : ℤ), Grade.BPlus, true) := by
  have hm : examMarkGradingHook m = m' := by
    unfold examMarkSave at h
    split_ifs at h <;> simp_all
  subst hm
  refine ⟨?_, ?_, by rw [examMarkSave_scenario]; rfl⟩
  · intro hAbs
    rw [examMarkGradingHook_isAbsent] at hAbs
    simp [examMarkGradingHook, hAbs]
  · intro hAbs
    rw [examMarkGradingHook_isAbsent] at hAbs
    simp [examMarkGradingHook, hAbs]

/-- Witness for C2 at the spec's own scenario
(`marksObtained = 72, totalMarks = 100, passingMarks = 40`). -/
theorem C2_exam_mark_grading_witness :
    ((⟨72, 100, 40, 72, Grade.BPlus, true, false⟩ : ExamMark).isAbsent = false →
        (⟨72, 100, 40, 72, Grade.BPlus, true, false⟩ : ExamMark).percentage =
          jsRound ((72 : ℚ) / 100 * 100) ∧
        (⟨72, 100, 40, 72, Grade.BPlus, true, false⟩ : ExamMark).isPassed =
          decide ((72 : ℚ) ≥ 40) ∧
        (⟨72, 100, 40, 72, Grade.BPlus, true, false⟩ : ExamMark).grade =
          calculateGrade 72) ∧
    ((⟨72, 100, 40, 72, Grade.BPlus, true, false⟩ : ExamMark).isAbsent = true →
        (⟨72, 100, 40, 72, Grade.BPlus, true, false⟩ : ExamMark).marksObtained = 0 ∧
        (⟨72, 100, 40, 72, Grade.BPlus, true, false⟩ : ExamMark).percentage = 0 ∧
        (⟨72, 100, 40, 72, Grade.BPlus, true, false⟩ : ExamMark).grade = Grade.F ∧
        (⟨72, 100, 40, 72, Grade.BPlus, true, false⟩ : ExamMark).isPassed = false) ∧
    (examMarkSave ⟨72, 100, 40, 0, Grade.F, false, false⟩).map
        (fun r => (r.percentage, r.grade, r.isPassed)) =
      Except.ok ((72 : ℤ), Grade.BPlus, true) :=
  C2_exam_mark_grading ⟨72, 100, 40, 0, Grade.F, false, false⟩
    ⟨72, 100, 40, 72, Grade.BPlus, true, false⟩ examMarkSave_scenario

/-! ## FeePayment model (src/backend/models/FeePayment.js) -/

/-- `status` enum values of `feePaymentSchema` (line 79). -/
inductive FeeStatus
  | Paid | Partial | Pending | Overdue | Cancelled
  deriving DecidableEq, Repr

/-- The schema's `status.enum` list, in source order. -/
def feePaymentStatusEnum : List FeeStatus :=
  [.Paid, .Partial, .Pending, .Overdue, .Cancelled]

/-- The FeePayment fields the save pipeline reads or writes. -/
structure FeePayment where
  dueAmount : ℚ
  paidAmount : ℚ
  lateFee : ℚ
  discount : ℚ
  totalAmount : ℚ
  dueDate : Option ℤ
  status : FeeStatus
  deriving DecidableEq, Repr

/-- `this.dueDate && new Date() > this.dueDate` (FeePayment.js line 162): a
missing due date is falsy, so the conjunction is false. -/
def pastDue (now : ℤ) (dueDate : Option ℤ) : Bool :=
  match dueDate with
  | some d => now > d
  | none => false

/-- Pre-save hook of `feePaymentSchema` (lines 154–166): recompute
`totalAmount`, then overwrite `status` from the amounts and due date.
Receipt-number generation (lines 134–152) touches none of these fields and is
omitted. `now` is the hook's `new Date()`. -/
def feePaymentPreSave (now : ℤ) (p : FeePayment) : FeePayment :=
  let p := { p with totalAmount := p.paidAmount + p.lateFee - p.discount }
  if p.paidAmount ≥ p.dueAmount then { p with status := .Paid }
  else if p.paidAmount > 0 then { p with status := .Partial }
  else if pastDue now p.dueDate then { p with status := .Overdue }
  else { p with status := .Pending }

/-- `FeePayment.save()`: the schema's `min` validators run before the custom
pre-save hook. -/
def feePaymentSave (now : ℤ) (p : FeePayment) : Except String FeePayment :=
  if p.dueAmount < 0 then .error "Due amount cannot be negative"
  else if p.paidAmount < 0 then .error "Paid amount cannot be negative"
  else if p.lateFee < 0 then .error "Late fee cannot be negative"
  else if p.discount < 0 then .error "Discount cannot be negative"
  else .ok (feePaymentPreSave now p)

/-- `pastDue` holds exactly when a due date exists and lies before `now`. -/
theorem pastDue_iff (now : ℤ) (o : Option ℤ) :
    pastDue now o = true ↔ ∃ d, o = some d ∧ d < now := by
  cases o <;> simp [pastDue]

/-- C3: after every save, `totalAmount = paidAmount + lateFee − discount`, and
`status` is Paid when `paidAmount ≥ dueAmount`, else Partial when
`0 < paidAmount < dueAmount`, else Overdue when `paidAmount = 0` and `now` is
past the due date, else Pending. -/
theorem C3_fee_payment_status (now : ℤ) (p p' : FeePayment)
    (h : feePaymentSave now p = .ok p') :
    p'.totalAmount = p'.paidAmount + p'.lateFee - p'.discount ∧
    (p'.paidAmount ≥ p'.dueAmount → p'.status = .Paid) ∧
    (0 < p'.paidAmount → p'.paidAmount < p'.dueAmount → p'.status = .Partial) ∧
    (p'.paidAmount = 0 → p'.paidAmount < p'.dueAmount →
      ∀ d, p'.dueDate = some d → d < now → p'.status = .Overdue) ∧
    (p'.paidAmount = 0 → p'.paidAmount < p'.dueAmount →
      (p'.dueDate = none ∨ ∀ d, p'.dueDate = some d → now ≤ d) →
      p'.status = .Pending) := by
  unfold feePaymentSave at h
  split_ifs at h with h1 h2 h3 h4 <;>
    simp only [reduceCtorEq, Except.ok.injEq] at h
  subst h
  simp only [feePaymentPreSave]
  split_ifs with c1 c2 c3
  · exact ⟨rfl, fun _ => rfl, fun _ hlt => absurd hlt (not_lt.mpr c1),
      fun _ hlt _ _ _ => absurd hlt (not_lt.mpr c1),
      fun _ hlt _ => absurd hlt (not_lt.mpr c1)⟩
  · exact ⟨rfl, fun hge => absurd hge c1, fun _ _ => rfl,
      fun hz _ _ _ _ => absurd (hz ▸ c2) (lt_irrefl 0),
      fun hz _ _ => absurd (hz ▸ c2) (lt_irrefl 0)⟩
  · refine ⟨rfl, fun hge => absurd hge c1, fun hpos _ => absurd hpos c2,
      fun _ _ _ _ _ => rfl, fun _ _ hnd => ?_⟩
    obtain ⟨d, hd, hdn⟩ := (pastDue_iff now p.dueDate).mp c3
    rcases hnd with hnone | hall
    · exact absurd hd (hnone ▸ (by simp))
    · exact absurd hdn (not_lt.mpr (hall d hd))
  · exact ⟨rfl, fun hge => absurd hge c1, fun hpos _ => absurd hpos c2,
      fun _ _ d hd hdn => absurd ((pastDue_iff now p.dueDate).mpr ⟨d, hd, hdn⟩) c3,
      fun _ _ _ => rfl⟩

/-- Witness for C3: a fully-paid record (`paidAmount = dueAmount = 1000`). -/
theorem C3_fee_payment_status_witness :
    (⟨1000, 1000, 0, 0, 1000, none, .Paid⟩ : FeePayment).totalAmount =
        (⟨1000, 1000, 0, 0, 1000, none, .Paid⟩ : FeePayment).paidAmount +
          (⟨1000, 1000, 0, 0, 1000, none, .Paid⟩ : FeePayment).lateFee -
          (⟨1000, 1000, 0, 0, 1000, none, .Paid⟩ : FeePayment).discount ∧
    ((⟨1000, 1000, 0, 0, 1000, none, .Paid⟩ : FeePayment).paidAmount ≥
        (⟨1000, 1000, 0, 0, 1000, none, .Paid⟩ : FeePayment).dueAmount →
      (⟨1000, 1000, 0, 0, 1000, none, .Paid⟩ : FeePayment).status = .Paid) ∧
    (0 < (⟨1000, 1000, 0, 0, 1000, none, .Paid⟩ : FeePayment).paidAmount →
      (⟨1000, 1000, 0, 0, 1000, none, .Paid⟩ : FeePayment).paidAmount <
        (⟨1000, 1000, 0, 0, 1000, none, .Paid⟩ : FeePayment).dueAmount →
      (⟨1000, 1000, 0, 0, 1000, none, .Paid⟩ : FeePayment).status = .Partial) ∧
    ((⟨1000, 1000, 0, 0, 1000, none, .Paid⟩ : FeePayment).paidAmount = 0 →
      (⟨1000, 1000, 0, 0, 1000, none, .Paid⟩ : FeePayment).paidAmount <
        (⟨1000, 1000, 0, 0, 1000, none, .Paid⟩ : FeePayment).dueAmount →
      ∀ d, (⟨1000, 1000, 0, 0, 1000, none, .Paid⟩ : FeePayment).dueDate = some d →
        d < 5 → (⟨1000, 1000, 0, 0, 1000, none, .Paid⟩ : FeePayment).status = .Overdue) ∧
    ((⟨1000, 1000, 0, 0, 1000, none, .Paid⟩ : FeePayment).paidAmount = 0 →
      (⟨1000, 1000, 0, 0, 1000, none, .Paid⟩ : FeePayment).paidAmount <
        (⟨1000, 1000, 0, 0, 1000, none, .Paid⟩ : FeePayment).dueAmount →
      ((⟨1000, 1000, 0, 0, 1000, none, .Paid⟩ : FeePayment).dueDate = none ∨
        ∀ d, (⟨1000, 1000, 0, 0, 1000, none, .Paid⟩ : FeePayment).dueDate = some d →
          (5 : ℤ) ≤ d) →
      (⟨1000, 1000, 0, 0, 1000, none, .Paid⟩ : FeePayment).status = .Pending) :=
  C3_fee_payment_status 5 ⟨1000, 1000, 0, 0, 0, none, .Cancelled⟩
    ⟨1000, 1000, 0, 0, 1000, none, .Paid⟩
    (by norm_num [feePaymentSave, feePaymentPreSave, pastDue])

/-- C10: the schema's status enum admits `Cancelled`, but the pre-save hook
overwrites `status` on every save with one of Paid, Partial, Overdue or
Pending, so no saved record carries status `Cancelled`. -/
theorem C10_no_cancelled_status_persists (now : ℤ) (p p' : FeePayment)
    (h : feePaymentSave now p = .ok p') :
    FeeStatus.Cancelled ∈ feePaymentStatusEnum ∧
    (p'.status = .Paid ∨ p'.status = .Partial ∨ p'.status = .Overdue ∨
      p'.status = .Pending) ∧
    p'.status ≠ .Cancelled := by
  refine ⟨by simp [feePaymentStatusEnum], ?_⟩
  unfold feePaymentSave at h
  split_ifs at h <;> simp only [reduceCtorEq, Except.ok.injEq] at h
  subst h
  simp only [feePaymentPreSave]
  split_ifs <;> simp

/-- Witness for C10: a record submitted with status `Cancelled` is stored with
status `Pending`. -/
theorem C10_no_cancelled_status_persists_witness :
    FeeStatus.Cancelled ∈ feePaymentStatusEnum ∧
    ((⟨200, 0, 0, 0, 0, none, .Pending⟩ : FeePayment).status = .Paid ∨
      (⟨200, 0, 0, 0, 0, none, .Pending⟩ : FeePayment).status = .Partial ∨
      (⟨200, 0, 0, 0, 0, none, .Pending⟩ : FeePayment).status = .Overdue ∨
      (⟨200, 0, 0, 0, 0, none, .Pending⟩ : FeePayment).status = .Pending) ∧
    (⟨200, 0, 0, 0, 0, none, .Pending⟩ : FeePayment).status ≠ .Cancelled :=
  C10_no_cancelled_status_persists 0 ⟨200, 0, 0, 0, 77, none, .Cancelled⟩
    ⟨200, 0, 0, 0, 0, none, .Pending⟩
    (by norm_num [feePaymentSave, feePaymentPreSave, pastDue])

/-! ## Library model (src/backend/models/Library.js) and the issue/return
controllers (library controller, routed at /api/library/:id/issue and
/api/library/:id/return) -/

/-- The Library fields the issue/return operations touch (JS Numbers; the
operations only add or subtract 1, modelled in ℤ). -/
structure Book where
  totalCopies : ℤ
  availableCopies : ℤ
  deriving DecidableEq, Repr

/-- `Library.save()`: schema `min` validators (`totalCopies ≥ 1`,
`availableCopies ≥ 0`), then the pre-save guard (Library.js lines 149–154)
rejecting `availableCopies > totalCopies`. -/
def librarySave (b : Book) : Except String Book :=
  if b.totalCopies < 1 then .error "Total copies must be at least 1"
  else if b.availableCopies < 0 then .error "Available copies cannot be negative"
  else if b.availableCopies > b.totalCopies then
    .error "Available copies cannot exceed total copies"
  else .ok b

/-- `issueBook`: reject when no copy is available, else decrement and save. -/
def issueBook (b : Book) : Except String Book :=
  if b.availableCopies ≤ 0 then .error "No copies available for issue"
  else librarySave { b with availableCopies := b.availableCopies - 1 }

/-- `returnBook`: reject when every copy is already in, else increment and
save. -/
def returnBook (b : Book) : Except String Book :=
  if b.availableCopies ≥ b.totalCopies then
    .error "All copies are already available"
  else librarySave { b with availableCopies := b.availableCopies + 1 }

/-- A book satisfying the schema bounds saves unchanged. -/
theorem librarySave_eq_ok (b : Book) (h1 : 1 ≤ b.totalCopies)
    (h2 : 0 ≤ b.availableCopies) (h3 : b.availableCopies ≤ b.totalCopies) :
    librarySave b = .ok b := by
  unfold librarySave
  rw [if_neg (by omega), if_neg (by omega), if_neg (by omega)]

/-- A successful save returns the book unchanged and certifies the schema
bounds. -/
theorem librarySave_ok_inv (b b' : Book) (h : librarySave b = .ok b') :
    b' = b ∧ 1 ≤ b.totalCopies ∧ 0 ≤ b.availableCopies ∧
      b.availableCopies ≤ b.totalCopies := by
  unfold librarySave at h
  split_ifs at h with g1 g2 g3 <;> simp only [reduceCtorEq, Except.ok.injEq] at h
  exact ⟨h.symm, by omega, by omega, by omega⟩

/-- C6: starting from a book satisfying `0 ≤ availableCopies ≤ totalCopies`,
issuing at zero availability is rejected, a successful issue decrements
`availableCopies` by one, returning at full availability is rejected, a
successful return increments by one, and both operations preserve
`0 ≤ availableCopies ≤ totalCopies`. -/
theorem C6_library_copies_invariant (b : Book)
    (hinv : 0 ≤ b.availableCopies ∧ b.availableCopies ≤ b.totalCopies ∧
      1 ≤ b.totalCopies) :
    (b.availableCopies = 0 →
      issueBook b = .error "No copies available for issue") ∧
    (∀ b', issueBook b = .ok b' →
      b'.totalCopies = b.totalCopies ∧
      b'.availableCopies = b.availableCopies - 1 ∧
      0 ≤ b'.availableCopies ∧ b'.availableCopies ≤ b'.totalCopies) ∧
    (0 < b.availableCopies →
      issueBook b = .ok { b with availableCopies := b.availableCopies - 1 }) ∧
    (b.availableCopies = b.totalCopies →
      returnBook b = .error "All copies are already available") ∧
    (∀ b', returnBook b = .ok b' →
      b'.totalCopies = b.totalCopies ∧
      b'.availableCopies = b.availableCopies + 1 ∧
      0 ≤ b'.availableCopies ∧ b'.availableCopies ≤ b'.totalCopies) ∧
    (b.availableCopies < b.totalCopies →
      returnBook b = .ok { b with availableCopies := b.availableCopies + 1 }) := by
  obtain ⟨h0, hle, ht⟩ := hinv
  refine ⟨?_, ?_, ?_, ?_, ?_, ?_⟩
  · intro hz
    unfold issueBook
    rw [if_pos (by omega)]
  · intro b' hb'
    unfold issueBook at hb'
    split_ifs at hb' with g1
    obtain ⟨hb, hA, hB, hC⟩ := librarySave_ok_inv _ _ hb'
    subst hb
    exact ⟨rfl, rfl, hB, hC⟩
  · intro hpos
    unfold issueBook
    rw [if_neg (by omega)]
    exact librarySave_eq_ok _ ht
      (by show (0 : ℤ) ≤ b.availableCopies - 1; omega)
      (by show b.availableCopies - 1 ≤ b.totalCopies; omega)
  · intro hfull
    unfold returnBook
    rw [if_pos (by omega)]
  · intro b' hb'
    unfold returnBook at hb'
    split_ifs at hb' with g1
    obtain ⟨hb, hA, hB, hC⟩ := librarySave_ok_inv _ _ hb'
    subst hb
    exact ⟨rfl, rfl, hB, hC⟩
  · intro hlt
    unfold returnBook
    rw [if_neg (by omega)]
    exact librarySave_eq_ok _ ht
      (by show (0 : ℤ) ≤ b.availableCopies + 1; omega)
      (by show b.availableCopies + 1 ≤ b.totalCopies; omega)

/-- Witness for C6: the spec's book-issue scenario with one available copy. -/
theorem C6_library_copies_invariant_witness :
    ((⟨5, 1⟩ : Book).availableCopies = 0 →
      issueBook ⟨5, 1⟩ = .error "No copies available for issue") ∧
    (∀ b', issueBook ⟨5, 1⟩ = .ok b' →
      b'.totalCopies = (⟨5, 1⟩ : Book).totalCopies ∧
      b'.availableCopies = (⟨5, 1⟩ : Book).availableCopies - 1 ∧
      0 ≤ b'.availableCopies ∧ b'.availableCopies ≤ b'.totalCopies) ∧
    (0 < (⟨5, 1⟩ : Book).availableCopies →
      issueBook ⟨5, 1⟩ =
        .ok { (⟨5, 1⟩ : Book) with
                availableCopies := (⟨5, 1⟩ : Book).availableCopies - 1 }) ∧
    ((⟨5, 1⟩ : Book).availableCopies = (⟨5, 1⟩ : Book).totalCopies →
      returnBook ⟨5, 1⟩ = .error "All copies are already available") ∧
    (∀ b', returnBook ⟨5, 1⟩ = .ok b' →
      b'.totalCopies = (⟨5, 1⟩ : Book).totalCopies ∧
      b'.availableCopies = (⟨5, 1⟩ : Book).availableCopies + 1 ∧
      0 ≤ b'.availableCopies ∧ b'.availableCopies ≤ b'.totalCopies) ∧
    ((⟨5, 1⟩ : Book).availableCopies < (⟨5, 1⟩ : Book).totalCopies →
      returnBook ⟨5, 1⟩ =
        .ok { (⟨5, 1⟩ : Book) with
                availableCopies := (⟨5, 1⟩ : Book).availableCopies + 1 }) :=
  C6_library_copies_invariant ⟨5, 1⟩ (by norm_num)

/-! ## Pagination envelope (attendanceController.getAttendance lines 90–101,
feesController.getFeeStructures lines 42–54, and the other list endpoints) -/

/-- The `pagination` object of every list response. -/
structure Pagination where
  current : ℕ
  pages : ℤ
  total : ℕ
  hasNext : Bool
  hasPrev : Bool
  deriving DecidableEq, Repr

/-- `{ current: parseInt(page), pages: Math.ceil(total / limit), total,
hasNext: page < Math.ceil(total / limit), hasPrev: page > 1 }`, with `page`
and `limit` the (integral, positive) values the endpoints receive. -/
def buildPagination (page limit total : ℕ) : Pagination :=
  let pages := jsCeil ((total : ℚ) / (limit : ℚ))
  { current := page
    pages := pages
    total := total
    hasNext := decide ((page : ℤ) < pages)
    hasPrev := decide (1 < page) }

/-- The destructuring defaults `const { page = 1, limit = 10 } = req.query`
shared by the list endpoints. -/
def listPagination (pageParam limitParam : Option ℕ) (total : ℕ) : Pagination :=
  buildPagination (pageParam.getD 1) (limitParam.getD 10) total

/-- C9: the envelope's `current` equals the requested page (default 1),
`pages` is the ceiling of `total / limit` (default limit 10), characterised as
the least `k` with `total ≤ k·limit`; `hasNext` holds iff `page < pages`; and
`hasPrev` holds iff `page > 1`. -/
theorem C9_pagination_envelope (page limit total : ℕ) (hl : 0 < limit) :
    (buildPagination page limit total).current = page ∧
    ((total : ℤ) ≤ (buildPagination page limit total).pages * limit ∧
      ∀ k : ℕ, total ≤ k * limit → (buildPagination page limit total).pages ≤ k) ∧
    ((buildPagination page limit total).hasNext = true ↔
      (page : ℤ) < (buildPagination page limit total).pages) ∧
    ((buildPagination page limit total).hasPrev = true ↔ 1 < page) ∧
    listPagination none none total = buildPagination 1 10 total := by
  have hlq : (0 : ℚ) < (limit : ℚ) := by exact_mod_cast hl
  refine ⟨rfl, ⟨?_, ?_⟩, ?_, ?_, rfl⟩
  · show (total : ℤ) ≤ jsCeil ((total : ℚ) / (limit : ℚ)) * limit
    have h1 : ((total : ℚ) / (limit : ℚ)) ≤ (⌈(total : ℚ) / (limit : ℚ)⌉ : ℚ) :=
      Int.le_ceil _
    rw [div_le_iff₀ hlq] at h1
    exact_mod_cast h1
  · intro k hk
    show jsCeil ((total : ℚ) / (limit : ℚ)) ≤ (k : ℤ)
    apply Int.ceil_le.mpr
    rw [div_le_iff₀ hlq]
    exact_mod_cast hk
  · simp [buildPagination]
  · simp [buildPagination]

/-- Witness for C9 at `page = 2`, `limit = 10`, `total = 25`. -/
theorem C9_pagination_envelope_witness :
    (buildPagination 2 10 25).current = 2 ∧
    ((25 : ℤ) ≤ (buildPagination 2 10 25).pages * 10 ∧
      ∀ k : ℕ, 25 ≤ k * 10 → (buildPagination 2 10 25).pages ≤ k) ∧
    ((buildPagination 2 10 25).hasNext = true ↔
      (2 : ℤ) < (buildPagination 2 10 25).pages) ∧
    ((buildPagination 2 10 25).hasPrev = true ↔ 1 < 2) ∧
    listPagination none none 25 = buildPagination 1 10 25 :=
  C9_pagination_envelope 2 10 25 (by decide)

/-! ## Attendance-percentage computations
(attendanceController.getStudentAttendanceSummary lines 321–335 and the
dashboard controller's calculateStudentAttendance lines 849–859) -/

/-- Attendance `status` enum ('Present', 'Absent', 'Late', 'Excused'). -/
inductive AttnStatus
  | Present | Absent | Late | Excused
  deriving DecidableEq, Repr

/-- The `summary` object of `getStudentAttendanceSummary`. -/
structure AttendanceSummary where
  totalDays : ℕ
  presentDays : ℕ
  absentDays : ℕ
  lateDays : ℕ
  excusedDays : ℕ
  attendancePercentage : ℤ
  deriving DecidableEq, Repr

/-- `getStudentAttendanceSummary`'s summary computation: per-status counts,
and `Math.round(((presentDays + lateDays + excusedDays) / totalDays) * 100)`
when `totalDays > 0` (else the initial 0). -/
def attendanceSummary (records : List AttnStatus) : AttendanceSummary :=
  let totalDays := records.length
  let presentDays := (records.filter (· == .Present)).length
  let absentDays := (records.filter (· == .Absent)).length
  let lateDays := (records.filter (· == .Late)).length
  let excusedDays := (records.filter (· == .Excused)).length
  let attendancePercentage :=
    if totalDays > 0 then
      jsRound (((presentDays + lateDays + excusedDays : ℕ) : ℚ) /
        (totalDays : ℚ) * 100)
    else 0
  ⟨totalDays, presentDays, absentDays, lateDays, excusedDays,
    attendancePercentage⟩

/-- `calculateStudentAttendance` (dashboard controller):
`Math.round((presentRecords / totalRecords) * 100)`, 0 when there are no
records; only status 'Present' is counted. -/
def calculateStudentAttendance (records : List AttnStatus) : ℤ :=
  let totalRecords := records.length
  if totalRecords = 0 then 0
  else
    let presentRecords := (records.filter (· == .Present)).length
    jsRound ((presentRecords : ℚ) / (totalRecords : ℚ) * 100)

/-- C4 counterexample: for the single record ['Late'],
`getStudentAttendanceSummary` reports 100, not the
round(#Present/total × 100) = 0 the claim asserts for every
attendance-percentage computation. -/
theorem C4_attendance_percentage_counterexample :
    (attendanceSummary [.Late]).attendancePercentage ≠
      jsRound ((([AttnStatus.Late].count AttnStatus.Present : ℕ) : ℚ) /
        (([AttnStatus.Late].length : ℕ) : ℚ) * 100) := by
  have l : (attendanceSummary [.Late]).attendancePercentage = 100 := by
    simp only [attendanceSummary, List.filter, List.length]
    norm_num [jsRound]
  have hcount : [AttnStatus.Late].count AttnStatus.Present = 0 := by decide
  have r : jsRound ((([AttnStatus.Late].count AttnStatus.Present : ℕ) : ℚ) /
      (([AttnStatus.Late].length : ℕ) : ℚ) * 100) = 0 := by
    rw [hcount]
    norm_num [jsRound]
  rw [l, r]
  decide

/-- C4 (amended): the dashboard computation `calculateStudentAttendance`
returns round(#Present/total × 100), counting only 'Present', while the
summary endpoint returns round((#Present + #Late + #Excused)/total × 100),
counting 'Late' and 'Excused' as effectively present; 'Absent' never counts
in either numerator. -/
theorem C4_attendance_percentage (records : List AttnStatus)
    (h : 0 < records.length) :
    calculateStudentAttendance records =
      jsRound ((records.count AttnStatus.Present : ℚ) /
        (records.length : ℚ) * 100) ∧
    (attendanceSummary records).attendancePercentage =
      jsRound (((records.count AttnStatus.Present +
          records.count AttnStatus.Late +
          records.count AttnStatus.Excused : ℕ) : ℚ) /
        (records.length : ℚ) * 100) := by
  have hc : ∀ s : AttnStatus,
      (records.filter (· == s)).length = records.count s := by
    intro s
    simp [List.count, List.countP_eq_length_filter]
  constructor
  · unfold calculateStudentAttendance
    rw [if_neg (by omega), hc]
  · unfold attendanceSummary
    simp only [hc]
    rw [if_pos h]

/-- Witness for C4 (amended) on ['Present', 'Absent', 'Late']. -/
theorem C4_attendance_percentage_witness :
    calculateStudentAttendance [.Present, .Absent, .Late] =
      jsRound ((([AttnStatus.Present, .Absent, .Late].count
          AttnStatus.Present : ℕ) : ℚ) /
        (([AttnStatus.Present, .Absent, .Late].length : ℕ) : ℚ) * 100) ∧
    (attendanceSummary [.Present, .Absent, .Late]).attendancePercentage =
      jsRound ((([AttnStatus.Present, .Absent, .Late].count AttnStatus.Present +
          [AttnStatus.Present, .Absent, .Late].count AttnStatus.Late +
          [AttnStatus.Present, .Absent, .Late].count AttnStatus.Excused : ℕ) : ℚ) /
        (([AttnStatus.Present, .Absent, .Late].length : ℕ) : ℚ) * 100) :=
  C4_attendance_percentage [.Present, .Absent, .Late] (by decide)

/-! ## Message threading (Message model pre-save hook and
messagesController.replyMessage) -/

/-- The Message fields the threading logic touches.  `threadId` is stored as
the string form of a message id; only equality of ids matters, so it is
modelled as `Option ℕ`. -/
structure Message where
  id : ℕ
  sender : ℕ
  recipient : ℕ
  parentMessage : Option ℕ
  threadId : Option ℕ
  deriving DecidableEq, Repr

/-- Pre-save hook of `messageSchema` (lines 105–124): when `threadId` is
absent, a root message gets its own id, a reply gets
`parent.threadId || parent._id`; when the parent id resolves to no document,
`findById` yields null, the callback throws, and the save fails through
`.catch(next)`. -/
def messagePreSave (db : List Message) (m : Message) : Except String Message :=
  match m.threadId with
  | some _ => .ok m
  | none =>
    match m.parentMessage with
    | some pid =>
      match db.find? (fun x => x.id == pid) with
      | some parent =>
        .ok { m with threadId := some (parent.threadId.getD parent.id) }
      | none => .error "Cannot read properties of null"
    | none => .ok { m with threadId := some m.id }

/-- `replyMessage` (messagesController.js lines 247–295): look up the
original, reject a caller who is neither sender nor recipient, then create
(and hence save) a message with swapped recipient,
`parentMessage = originalMessage._id` and
`threadId = originalMessage.threadId`. -/
def replyMessage (db : List Message) (userId origId newId : ℕ) :
    Except String Message :=
  match db.find? (fun x => x.id == origId) with
  | none => .error "Original message not found"
  | some orig =>
    if userId ≠ orig.sender ∧ userId ≠ orig.recipient then
      .error "Access denied"
    else
      messagePreSave db
        { id := newId
          sender := userId
          recipient := if userId == orig.sender then orig.recipient else orig.sender
          parentMessage := some orig.id
          threadId := orig.threadId }

/-- C7: a message saved without `threadId` and without a parent gets
`threadId = own id`; one with a parent gets the parent's `threadId`, or the
parent's own id when the parent has none; and a reply created through
`replyMessage` carries `parentMessage = the original` and the original's
`threadId`. -/
theorem C7_message_threading (db : List Message) :
    (∀ m m', m.threadId = none → m.parentMessage = none →
      messagePreSave db m = .ok m' → m'.threadId = some m.id) ∧
    (∀ m m' parent pid, m.threadId = none → m.parentMessage = some pid →
      db.find? (fun x => x.id == pid) = some parent →
      messagePreSave db m = .ok m' →
      m'.threadId = some (parent.threadId.getD parent.id)) ∧
    (∀ userId origId newId r orig t,
      db.find? (fun x => x.id == origId) = some orig →
      orig.threadId = some t →
      replyMessage db userId origId newId = .ok r →
      r.parentMessage = some orig.id ∧ r.threadId = some t) := by
  refine ⟨?_, ?_, ?_⟩
  · intro m m' h1 h2 hs
    simp only [messagePreSave, h1, h2, Except.ok.injEq] at hs
    subst hs
    rfl
  · intro m m' parent pid h1 h2 hfind hs
    simp only [messagePreSave, h1, h2, hfind, Except.ok.injEq] at hs
    subst hs
    rfl
  · intro userId origId newId r orig t hfind ht hs
    simp only [replyMessage, hfind] at hs
    split_ifs at hs with hacc <;>
      (simp only [messagePreSave, ht, Except.ok.injEq] at hs; subst hs;
        exact ⟨rfl, rfl⟩)

/-- Witness for C7: in a database holding message 2 (root of its own thread,
`threadId = 2`), a root save gives message 3 `threadId = 3`, a reply save
under the hook gives message 4 `threadId = 2`, and `replyMessage` by the
recipient (user 11) yields message 5 with `parentMessage = 2` and
`threadId = 2`. -/
theorem C7_message_threading_witness :
    (⟨3, 10, 11, none, some 3⟩ : Message).threadId =
      some (⟨3, 10, 11, none, none⟩ : Message).id ∧
    (⟨4, 11, 10, some 2, some 2⟩ : Message).threadId =
      some ((⟨2, 10, 11, none, some 2⟩ : Message).threadId.getD
        (⟨2, 10, 11, none, some 2⟩ : Message).id) ∧
    ((⟨5, 11, 10, some 2, some 2⟩ : Message).parentMessage =
        some (⟨2, 10, 11, none, some 2⟩ : Message).id ∧
      (⟨5, 11, 10, some 2, some 2⟩ : Message).threadId = some 2) :=
  ⟨(C7_message_threading [⟨2, 10, 11, none, some 2⟩]).1
      ⟨3, 10, 11, none, none⟩ ⟨3, 10, 11, none, some 3⟩ rfl rfl rfl,
   (C7_message_threading [⟨2, 10, 11, none, some 2⟩]).2.1
      ⟨4, 11, 10, some 2, none⟩ ⟨4, 11, 10, some 2, some 2⟩
      ⟨2, 10, 11, none, some 2⟩ 2 rfl rfl rfl rfl,
   (C7_message_threading [⟨2, 10, 11, none, some 2⟩]).2.2
      11 2 5 ⟨5, 11, 10, some 2, some 2⟩ ⟨2, 10, 11, none, some 2⟩ 2
      rfl rfl rfl⟩

/-! ## Session model (src/backend/models/Session.js)

`save()` is modelled under a sequential interleaving (one save at a time);
the spec itself flags the behaviour under concurrent activation as a race to
be fixed.  `isActiveModified` is Mongoose's `this.isModified('isActive')`;
in the sequential model an unmodified `isActive` means the stored document
with the same id carries the same value (captured as a hypothesis). -/

/-- The Session fields the save pipeline touches; dates as timestamps. -/
structure SessionDoc where
  id : ℕ
  startDate : ℤ
  endDate : ℤ
  isActive : Bool
  deriving DecidableEq, Repr

/-- `updateMany({ _id: { $ne: this._id } }, { isActive: false })`
(Session.js lines 45–48). -/
def deactivateOthers (id : ℕ) (db : List SessionDoc) : List SessionDoc :=
  db.map fun s => if s.id ≠ id then { s with isActive := false } else s

/-- Storing the saved document: replace the row with the same id, or insert. -/
def upsertSession (db : List SessionDoc) (doc : SessionDoc) :
    List SessionDoc :=
  if (db.find? (fun s => s.id == doc.id)).isSome then
    db.map fun s => if s.id == doc.id then doc else s
  else db ++ [doc]

/-- `Session.save()`: the first pre-save hook (lines 42–51) deactivates every
other session when the document is active and `isActive` was modified; the
second hook (lines 54–59) then rejects `endDate ≤ startDate` — the first
hook's `updateMany` has already run, but the document itself is not stored.
Returns the resulting database and the error, if any. -/
def sessionSave (db : List SessionDoc) (doc : SessionDoc)
    (isActiveModified : Bool) : List SessionDoc × Option String :=
  let db1 :=
    if doc.isActive && isActiveModified then deactivateOthers doc.id db else db
  if doc.endDate ≤ doc.startDate then
    (db1, some "End date must be after start date")
  else (upsertSession db1 doc, none)

/-- An active survivor of `deactivateOthers` is an untouched row with the
saved id. -/
theorem active_mem_deactivateOthers {db : List SessionDoc} {id : ℕ}
    {s : SessionDoc} (h : s ∈ deactivateOthers id db)
    (ha : s.isActive = true) : s ∈ db ∧ s.id = id := by
  obtain ⟨x, hx, hfx⟩ := List.mem_map.mp h
  by_cases hid : x.id = id
  · have hs : s = x := by rw [← hfx]; exact if_neg (by simp [hid])
    exact hs ▸ ⟨hx, hid⟩
  · exfalso
    have hs : s = { x with isActive := false } := by
      rw [← hfx]; exact if_pos hid
    rw [hs] at ha
    simp at ha

/-- A member of the upserted database is the saved document or an untouched
row with a different id. -/
theorem mem_upsertSession {db : List SessionDoc} {doc s : SessionDoc}
    (h : s ∈ upsertSession db doc) :
    s = doc ∨ (s ∈ db ∧ s.id ≠ doc.id) := by
  unfold upsertSession at h
  split_ifs at h with hf
  · obtain ⟨x, hx, hfx⟩ := List.mem_map.mp h
    by_cases hid : x.id = doc.id
    · left
      rw [← hfx]
      exact if_pos (by simp [hid])
    · right
      have hs : s = x := by rw [← hfx]; exact if_neg (by simp [hid])
      exact hs ▸ ⟨hx, hid⟩
  · rcases List.mem_append.mp h with hdb | hdoc
    · right
      refine ⟨hdb, fun hid => ?_⟩
      have hnone : db.find? (fun s => s.id == doc.id) = none := by
        cases hfind : db.find? (fun s => s.id == doc.id) <;> simp_all
      exact absurd (by simpa using hid)
        (List.find?_eq_none.mp hnone s hdb)
    · left
      simpa using hdoc

/-- C8: under sequential saves, a save with `endDate ≤ startDate` is rejected
with an error and a successful save certifies `endDate > startDate`; starting
from a database with at most one active session (and with
`isModified('isActive') = false` implying the stored row with the saved id
carries the same `isActive`), after any save at most one session is active,
and after saving a session with `isActive = true` every other session has
`isActive = false`. -/
theorem C8_session_invariants (db : List SessionDoc) (doc : SessionDoc)
    (isActiveModified : Bool)
    (hone : ∀ s ∈ db, ∀ t ∈ db, s.isActive = true → t.isActive = true →
      s.id = t.id)
    (hmod : isActiveModified = false → doc.isActive = true →
      ∃ s₀, s₀ ∈ db ∧ s₀.id = doc.id ∧ s₀.isActive = true) :
    (doc.endDate ≤ doc.startDate →
      (sessionSave db doc isActiveModified).2 =
        some "End date must be after start date") ∧
    ((sessionSave db doc isActiveModified).2 = none →
      doc.startDate < doc.endDate) ∧
    (∀ s ∈ (sessionSave db doc isActiveModified).1,
      ∀ t ∈ (sessionSave db doc isActiveModified).1,
      s.isActive = true → t.isActive = true → s.id = t.id) ∧
    (doc.isActive = true →
      ∀ s ∈ (sessionSave db doc isActiveModified).1,
        s.id ≠ doc.id → s.isActive = false) := by
  have hfst : (sessionSave db doc isActiveModified).1 =
      if doc.endDate ≤ doc.startDate then
        (if doc.isActive && isActiveModified then deactivateOthers doc.id db
         else db)
      else
        upsertSession
          (if doc.isActive && isActiveModified then deactivateOthers doc.id db
           else db) doc := by
    simp only [sessionSave]
    split_ifs <;> rfl
  have hsnd : (sessionSave db doc isActiveModified).2 =
      if doc.endDate ≤ doc.startDate then
        some "End date must be after start date"
      else none := by
    simp only [sessionSave]
    split_ifs <;> rfl
  have hA1 : ∀ s, s ∈ deactivateOthers doc.id db → s.isActive = true →
      s ∈ db :=
    fun _ hs ha => (active_mem_deactivateOthers hs ha).1
  have hA : ∀ s, s ∈ deactivateOthers doc.id db → s.isActive = true →
      s.id = doc.id :=
    fun _ hs ha => (active_mem_deactivateOthers hs ha).2
  have hB : doc.isActive = true → isActiveModified = false →
      ∀ s ∈ db, s.isActive = true → s.id = doc.id := by
    intro hdoc hmodf s hs ha
    obtain ⟨s₀, hs₀, hid₀, hact₀⟩ := hmod hmodf hdoc
    rw [← hid₀]
    exact hone s hs s₀ hs₀ ha hact₀
  have hgf : ∀ (_ : doc.isActive = true),
      ¬((doc.isActive && isActiveModified) = true) → isActiveModified = false := by
    intro hdoc hg
    cases hm : isActiveModified
    · rfl
    · rw [hdoc, hm] at hg
      simp at hg
  refine ⟨?_, ?_, ?_, ?_⟩
  · intro hle
    rw [hsnd, if_pos hle]
  · intro hnone
    by_contra hlt
    push_neg at hlt
    rw [hsnd, if_pos hlt] at hnone
    exact absurd hnone (by simp)
  · intro s hs t ht hsa hta
    rw [hfst] at hs ht
    split_ifs at hs ht with hd hg hg
    · rw [hA s hs hsa, hA t ht hta]
    · by_cases hdoc : doc.isActive = true
      · have hmodf := hgf hdoc hg
        rw [hB hdoc hmodf s hs hsa, hB hdoc hmodf t ht hta]
      · exact hone s hs t ht hsa hta
    · rcases mem_upsertSession hs with hseq | ⟨hsD, hsid⟩ <;>
        rcases mem_upsertSession ht with hteq | ⟨htD, htid⟩
      · rw [hseq, hteq]
      · exact absurd (hA t htD hta) htid
      · exact absurd (hA s hsD hsa) hsid
      · exact absurd (hA s hsD hsa) hsid
    · rcases mem_upsertSession hs with hseq | ⟨hsD, hsid⟩ <;>
        rcases mem_upsertSession ht with hteq | ⟨htD, htid⟩
      · rw [hseq, hteq]
      · have hdoc : doc.isActive = true := hseq ▸ hsa
        exact absurd (hB hdoc (hgf hdoc hg) t htD hta) htid
      · have hdoc : doc.isActive = true := hteq ▸ hta
        exact absurd (hB hdoc (hgf hdoc hg) s hsD hsa) hsid
      · by_cases hdoc : doc.isActive = true
        · exact absurd (hB hdoc (hgf hdoc hg) s hsD hsa) hsid
        · exact hone s hsD t htD hsa hta
  · intro hdoc s hs hsid
    cases hsa : s.isActive
    · rfl
    · exfalso
      rw [hfst] at hs
      split_ifs at hs with hd hg hg
      · exact hsid (hA s hs hsa)
      · exact hsid (hB hdoc (hgf hdoc hg) s hs hsa)
      · rcases mem_upsertSession hs with hseq | ⟨hsD, hsid'⟩
        · exact hsid (by rw [hseq])
        · exact hsid' (hA s hsD hsa)
      · rcases mem_upsertSession hs with hseq | ⟨hsD, hsid'⟩
        · exact hsid (by rw [hseq])
        · exact hsid' (hB hdoc (hgf hdoc hg) s hsD hsa)

/-- Witness for C8: activating session 2 (dates 0 < 20) in a database where
session 1 is the active one. -/
theorem C8_session_invariants_witness :
    ((⟨2, 0, 20, true⟩ : SessionDoc).endDate ≤
        (⟨2, 0, 20, true⟩ : SessionDoc).startDate →
      (sessionSave [⟨1, 0, 10, true⟩] ⟨2, 0, 20, true⟩ true).2 =
        some "End date must be after start date") ∧
    ((sessionSave [⟨1, 0, 10, true⟩] ⟨2, 0, 20, true⟩ true).2 = none →
      (⟨2, 0, 20, true⟩ : SessionDoc).startDate <
        (⟨2, 0, 20, true⟩ : SessionDoc).endDate) ∧
    (∀ s ∈ (sessionSave [⟨1, 0, 10, true⟩] ⟨2, 0, 20, true⟩ true).1,
      ∀ t ∈ (sessionSave [⟨1, 0, 10, true⟩] ⟨2, 0, 20, true⟩ true).1,
      s.isActive = true → t.isActive = true → s.id = t.id) ∧
    ((⟨2, 0, 20, true⟩ : SessionDoc).isActive = true →
      ∀ s ∈ (sessionSave [⟨1, 0, 10, true⟩] ⟨2, 0, 20, true⟩ true).1,
        s.id ≠ (⟨2, 0, 20, true⟩ : SessionDoc).id → s.isActive = false) :=
  C8_session_invariants [⟨1, 0, 10, true⟩] ⟨2, 0, 20, true⟩ true
    (by decide) (fun h => absurd h (by decide))

/-! ## Notice model (`noticeSchema.statics.getForUser`) and the
getNotices controller -/

/-- The Notice fields visibility reads.  Audience entries and the principal's
role are the schema's literal strings (audiences 'All', 'Students',
'Teachers', 'Parents', 'Admin'; roles 'Admin', 'Teacher', 'Student',
'Parent').  `expiryDate = none` models both a missing and a null expiry. -/
structure Notice where
  id : ℕ
  isPublished : Bool
  isActive : Bool
  isPinned : Bool
  publishDate : ℤ
  expiryDate : Option ℤ
  targetAudience : List String
  targetClasses : List ℕ
  deriving DecidableEq, Repr

/-- The Mongo filter `getForUser` builds (Notice model lines 156–189):
published, active, `publishDate ≤ now`, unexpired unless `includeExpired`,
`targetAudience` containing 'All' or the user's role string, and — when the
user has classes — `targetClasses` empty (`$size: 0`) or intersecting them
(`$in`). -/
def noticeMatches (now : ℤ) (userRole : String) (userClasses : List ℕ)
    (includeExpired : Bool) (n : Notice) : Bool :=
  n.isPublished && n.isActive && decide (n.publishDate ≤ now) &&
  (includeExpired ||
    (match n.expiryDate with
     | none => true
     | some e => decide (e > now))) &&
  (n.targetAudience.contains "All" || n.targetAudience.contains userRole) &&
  (userClasses.isEmpty ||
    (n.targetClasses.isEmpty ||
      n.targetClasses.any (fun c => userClasses.contains c)))

/-- The sort `{ isPinned: -1, publishDate: -1 }`: pinned first, ties by
publishDate descending. -/
def noticeBefore (a b : Notice) : Bool :=
  if a.isPinned ≠ b.isPinned then a.isPinned
  else decide (b.publishDate ≤ a.publishDate)

/-- `getForUser`: filter by the visibility query, sort pinned-first then
newest-first (`options.limit`/`skip` pagination is applied to this stream
afterwards). -/
def getForUser (db : List Notice) (now : ℤ) (userRole : String)
    (userClasses : List ℕ) (includeExpired : Bool) : List Notice :=
  (db.filter (noticeMatches now userRole userClasses includeExpired)).mergeSort
    noticeBefore

/-- `getNotices` (notices controller lines 22–45): only a Student principal
with a student profile and class queries with classes. -/
def getNoticesUserClasses (userRole : String) (studentClass : Option ℕ) :
    List ℕ :=
  if userRole == "Student" then
    match studentClass with
    | some c => [c]
    | none => []
  else []

/-- The spec's §4.6 visibility contract, written from its words (to be
compared with the query the code builds). -/
def noticeVisibleSpec (now : ℤ) (userRole : String) (userClasses : List ℕ)
    (includeExpired : Bool) (n : Notice) : Prop :=
  n.isPublished = true ∧ n.isActive = true ∧ n.publishDate ≤ now ∧
  (includeExpired = true ∨ n.expiryDate = none ∨
    ∃ e, n.expiryDate = some e ∧ now < e) ∧
  ("All" ∈ n.targetAudience ∨ userRole ∈ n.targetAudience) ∧
  (userClasses = [] ∨ n.targetClasses = [] ∨
    ∃ c, c ∈ n.targetClasses ∧ c ∈ userClasses)

/-- The spec's ordering contract: pinned notices first, ties broken by
publishDate descending. -/
def noticeOrderSpec (a b : Notice) : Prop :=
  (b.isPinned = true → a.isPinned = true) ∧
  (a.isPinned = b.isPinned → b.publishDate ≤ a.publishDate)

/-- The query filter agrees with the spec's visibility predicate. -/
theorem noticeMatches_iff (now : ℤ) (userRole : String) (userClasses : List ℕ)
    (includeExpired : Bool) (n : Notice) :
    noticeMatches now userRole userClasses includeExpired n = true ↔
      noticeVisibleSpec now userRole userClasses includeExpired n := by
  unfold noticeMatches noticeVisibleSpec
  cases hE : n.expiryDate <;>
    simp [List.isEmpty_iff, List.any_eq_true, and_assoc]

/-- `noticeBefore` is transitive. -/
theorem noticeBefore_trans (a b c : Notice) (hab : noticeBefore a b = true)
    (hbc : noticeBefore b c = true) : noticeBefore a c = true := by
  unfold noticeBefore at *
  by_cases h1 : a.isPinned = b.isPinned <;>
    by_cases h2 : b.isPinned = c.isPinned <;>
    by_cases h3 : a.isPinned = c.isPinned <;>
    simp_all <;>
    first
      | omega
      | (cases ha : a.isPinned <;> cases hb : b.isPinned <;>
          cases hc : c.isPinned <;> simp_all)

/-- `noticeBefore` is total. -/
theorem noticeBefore_total (a b : Notice) :
    (noticeBefore a b || noticeBefore b a) = true := by
  unfold noticeBefore
  by_cases h : a.isPinned = b.isPinned <;>
    cases ha : a.isPinned <;> cases hb : b.isPinned <;> simp_all <;> omega

/-- C5: a notice is in the `getForUser` stream iff it is stored and satisfies
the spec's visibility contract; a notice targeted only at 'Teachers' is never
returned to a Student; and the stream is ordered pinned-first with ties by
publishDate descending. -/
theorem C5_notice_visibility (db : List Notice) (now : ℤ) (userRole : String)
    (studentClass : Option ℕ) (includeExpired : Bool) :
    (∀ n, n ∈ getForUser db now userRole
        (getNoticesUserClasses userRole studentClass) includeExpired ↔
      n ∈ db ∧ noticeVisibleSpec now userRole
        (getNoticesUserClasses userRole studentClass) includeExpired n) ∧
    (∀ n, n.targetAudience = ["Teachers"] →
      n ∉ getForUser db now "Student"
        (getNoticesUserClasses "Student" studentClass) includeExpired) ∧
    (getForUser db now userRole (getNoticesUserClasses userRole studentClass)
        includeExpired).Pairwise noticeOrderSpec := by
  refine ⟨?_, ?_, ?_⟩
  · intro n
    unfold getForUser
    rw [List.mem_mergeSort, List.mem_filter, noticeMatches_iff]
  · intro n hTA hmem
    unfold getForUser at hmem
    rw [List.mem_mergeSort, List.mem_filter, noticeMatches_iff] at hmem
    obtain ⟨-, -, -, -, hAud, -⟩ := hmem.2
    rcases hAud with hAll | hRole
    · rw [hTA] at hAll
      simp at hAll
    · rw [hTA] at hRole
      simp at hRole
  · unfold getForUser
    refine List.Pairwise.imp ?_
      (List.sorted_mergeSort noticeBefore_trans noticeBefore_total _)
    intro a b hab
    unfold noticeBefore at hab
    constructor
    · intro hbp
      by_cases h : a.isPinned = b.isPinned
      · rw [h, hbp]
      · rw [if_pos h] at hab
        exact hab
    · intro h
      rw [if_neg (by simp [h])] at hab
      exact of_decide_eq_true hab

/-! ## Attendance list query building
(attendanceController.getAttendance lines 11–102) -/

/-- An id-valued Mongo condition: `{ field: id }` or `{ field: { $in: ids } }`. -/
inductive IdCond
  | eq (i : ℕ)
  | inList (ids : List ℕ)
  deriving DecidableEq, Repr

/-- Whether an id satisfies the condition. -/
def IdCond.holds : IdCond → ℕ → Bool
  | .eq i, x => x == i
  | .inList l, x => l.contains x

/-- The date condition `getAttendance` can add: a single day
(`$gte` day, `$lt` next day) or an inclusive range (`$gte`/`$lte`); dates in
day units. -/
inductive DateCond
  | day (lo : ℤ)
  | range (lo hi : ℤ)
  deriving DecidableEq, Repr

/-- An Attendance record's query-relevant fields (`classRef`, `sectionRef`,
`subjectRef` stand for the source's `class`, `section`, `subject`, which are
Lean keywords). -/
structure AttendanceRecord where
  student : ℕ
  classRef : ℕ
  sectionRef : ℕ
  subjectRef : ℕ
  date : ℤ
  status : AttnStatus
  deriving DecidableEq, Repr

/-- The caller-controlled query parameters of GET /api/attendance. -/
structure AttnReqQuery where
  classId : Option ℕ := none
  sectionId : Option ℕ := none
  studentId : Option ℕ := none
  subjectId : Option ℕ := none
  date : Option ℤ := none
  startDate : Option ℤ := none
  endDate : Option ℤ := none
  status : Option AttnStatus := none
  deriving Repr

/-- The Mongo query object `getAttendance` builds. -/
structure AttnQuery where
  student : Option IdCond := none
  classRef : Option IdCond := none
  sectionRef : Option ℕ := none
  subjectRef : Option ℕ := none
  status : Option AttnStatus := none
  date : Option DateCond := none
  deriving Repr

/-- `getAttendance`'s query construction, in source order: role-based
pre-scoping (lines 30–48: a Student's own profile id, a Parent's children's
ids when any, a Teacher's assigned classes), then caller filters (lines
51–55) — each of which assigns `query.<field>` and so overwrites the role
scope for that field — then date filtering (lines 58–68). -/
def buildAttendanceQuery (role : String) (selfStudent : Option ℕ)
    (children : List ℕ) (assignedClasses : Option (List ℕ))
    (rq : AttnReqQuery) : AttnQuery :=
  let q : AttnQuery := {}
  let q := if role == "Student" then
      match selfStudent with
      | some s => { q with student := some (.eq s) }
      | none => q
    else if role == "Parent" then
      (if children.isEmpty then q
       else { q with student := some (.inList children) })
    else if role == "Teacher" then
      match assignedClasses with
      | some cls => { q with classRef := some (.inList cls) }
      | none => q
    else q
  let q := match rq.classId with
    | some c => { q with classRef := some (.eq c) }
    | none => q
  let q := match rq.sectionId with
    | some sec => { q with sectionRef := some sec }
    | none => q
  let q := match rq.studentId with
    | some st => { q with student := some (.eq st) }
    | none => q
  let q := match rq.subjectId with
    | some sub => { q with subjectRef := some sub }
    | none => q
  let q := match rq.status with
    | some st => { q with status := some st }
    | none => q
  match rq.date with
  | some d => { q with date := some (.day d) }
  | none =>
    match rq.startDate, rq.endDate with
    | some lo, some hi => { q with date := some (.range lo hi) }
    | _, _ => q

/-- Whether a record matches the built Mongo query. -/
def attendanceMatches (q : AttnQuery) (r : AttendanceRecord) : Bool :=
  (match q.student with | some c => c.holds r.student | none => true) &&
  (match q.classRef with | some c => c.holds r.classRef | none => true) &&
  (match q.sectionRef with | some s => r.sectionRef == s | none => true) &&
  (match q.subjectRef with | some s => r.subjectRef == s | none => true) &&
  (match q.status with | some s => r.status == s | none => true) &&
  (match q.date with
   | some (.day lo) => decide (lo ≤ r.date) && decide (r.date < lo + 1)
   | some (.range lo hi) => decide (lo ≤ r.date) && decide (r.date ≤ hi)
   | none => true)

/-- `getAttendance`: filter by the built query, sort `{ date: -1 }`, skip
`(page−1)·limit`, take `limit`. -/
def getAttendance (role : String) (selfStudent : Option ℕ)
    (children : List ℕ) (assignedClasses : Option (List ℕ))
    (rq : AttnReqQuery) (page limit : ℕ) (db : List AttendanceRecord) :
    List AttendanceRecord :=
  ((((db.filter (attendanceMatches
        (buildAttendanceQuery role selfStudent children assignedClasses
          rq))).mergeSort
      (fun a b => decide (b.date ≤ a.date))).drop
    ((page - 1) * limit)).take limit)

/-- C1 fails on the code: a Student principal whose own student profile is 1,
supplying `?student=2`, receives student 2's attendance record — the
caller's `student` filter (line 53) overwrites the role scope set at line 33
instead of intersecting with it. -/
theorem C1_student_scope_overridden :
    getAttendance "Student" (some 1) [] none { studentId := some 2 } 1 10
        [⟨2, 7, 1, 4, 100, .Present⟩] =
      [⟨2, 7, 1, 4, 100, .Present⟩] ∧
    (⟨2, 7, 1, 4, 100, .Present⟩ : AttendanceRecord).student ≠ 1 := by
  constructor
  · unfold getAttendance buildAttendanceQuery
    simp [attendanceMatches, IdCond.holds]
  · decide

end ZecSms
